import Mathlib

/-!
Verification of the Qdrant vector-database layer of the
Automated-Commercial-Credit-Analyst repository (src/database/vector_db.py).

The Python class `VectorDatabase` is shallowly embedded: pure helpers become
Lean functions, and the external collaborators (the SentenceTransformer
embedding model and the Qdrant client) are passed in as explicit function
parameters or modelled as small executable state machines.  Exceptions are
modelled with `Except`, the error carrying the state of the external store at
the moment the exception propagates.
-/

namespace VectorDb

/-! ### MD5 (used by `_generate_chunk_id` via `hashlib.md5(...).hexdigest()`)

Machine words are `Nat` reduced mod 2^32 at every step.  Bytes are `Nat`
values below 256; `strBytes` is UTF-8 encoding, matching Python `str.encode()`.
-/

/-- UTF-8 encoding of a single Unicode code point. -/
def utf8Bytes (n : Nat) : List Nat :=
  if n < 128 then [n]
  else if n < 2048 then [192 + n / 64, 128 + n % 64]
  else if n < 65536 then [224 + n / 4096, 128 + (n / 64) % 64, 128 + n % 64]
  else [240 + n / 262144, 128 + (n / 4096) % 64, 128 + (n / 64) % 64, 128 + n % 64]

/-- UTF-8 bytes of a string, as Python `s.encode()` produces. -/
def strBytes (s : String) : List Nat :=
  s.data.foldr (fun c acc => utf8Bytes c.toNat ++ acc) []

/-- The 64 MD5 round constants (floor(2^32 * |sin(i+1)|)). -/
def md5K : List Nat :=
  [0xd76aa478, 0xe8c7b756, 0x242070db, 0xc1bdceee,
   0xf57c0faf, 0x4787c62a, 0xa8304613, 0xfd469501,
   0x698098d8, 0x8b44f7af, 0xffff5bb1, 0x895cd7be,
   0x6b901122, 0xfd987193, 0xa679438e, 0x49b40821,
   0xf61e2562, 0xc040b340, 0x265e5a51, 0xe9b6c7aa,
   0xd62f105d, 0x02441453, 0xd8a1e681, 0xe7d3fbc8,
   0x21e1cde6, 0xc33707d6, 0xf4d50d87, 0x455a14ed,
   0xa9e3e905, 0xfcefa3f8, 0x676f02d9, 0x8d2a4c8a,
   0xfffa3942, 0x8771f681, 0x6d9d6122, 0xfde5380c,
   0xa4beea44, 0x4bdecfa9, 0xf6bb4b60, 0xbebfbc70,
   0x289b7ec6, 0xeaa127fa, 0xd4ef3085, 0x04881d05,
   0xd9d4d039, 0xe6db99e5, 0x1fa27cf8, 0xc4ac5665,
   0xf4292244, 0x432aff97, 0xab9423a7, 0xfc93a039,
   0x655b59c3, 0x8f0ccc92, 0xffeff47d, 0x85845dd1,
   0x6fa87e4f, 0xfe2ce6e0, 0xa3014314, 0x4e0811a1,
   0xf7537e82, 0xbd3af235, 0x2ad7d2bb, 0xeb86d391]

/-- The 64 MD5 per-round left-rotation amounts. -/
def md5S : List Nat :=
  [7, 12, 17, 22, 7, 12, 17, 22, 7, 12, 17, 22, 7, 12, 17, 22,
   5, 9, 14, 20, 5, 9, 14, 20, 5, 9, 14, 20, 5, 9, 14, 20,
   4, 11, 16, 23, 4, 11, 16, 23, 4, 11, 16, 23, 4, 11, 16, 23,
   6, 10, 15, 21, 6, 10, 15, 21, 6, 10, 15, 21, 6, 10, 15, 21]

/-- Left-rotation of a 32-bit word (input assumed below 2^32). -/
def rotl32 (x s : Nat) : Nat :=
  ((x <<< s) ||| (x >>> (32 - s))) % 4294967296

/-- MD5 padding: append 0x80, zero-pad to 56 mod 64, append the 64-bit
little-endian bit length. -/
def md5Pad (msg : List Nat) : List Nat :=
  let l := msg.length
  let k := (120 - (l + 1) % 64) % 64
  let bitLen := (l * 8) % 18446744073709551616
  msg ++ [128] ++ List.replicate k 0 ++
    [bitLen % 256, bitLen / 256 % 256, bitLen / 65536 % 256,
     bitLen / 16777216 % 256, bitLen / 4294967296 % 256,
     bitLen / 1099511627776 % 256, bitLen / 281474976710656 % 256,
     bitLen / 72057594037927936 % 256]

/-- Split a byte list into 64-byte chunks. -/
def chunks64 : List Nat → List (List Nat)
  | [] => []
  | b :: bs => ((b :: bs).take 64) :: chunks64 ((b :: bs).drop 64)
termination_by l => l.length
decreasing_by
  simp [List.drop_succ_cons]
  omega

/-- Little-endian 32-bit words of a byte list. -/
def leWords : List Nat → List Nat
  | b0 :: b1 :: b2 :: b3 :: rest =>
    (b0 + 256 * b1 + 65536 * b2 + 16777216 * b3) :: leWords rest
  | _ => []

/-- One MD5 round (round index `i`, message words `M`). -/
def md5Round (M : List Nat) (st : Nat × Nat × Nat × Nat) (i : Nat) :
    Nat × Nat × Nat × Nat :=
  let a := st.1
  let b := st.2.1
  let c := st.2.2.1
  let d := st.2.2.2
  let fg : Nat × Nat :=
    if i < 16 then ((b &&& c) ||| ((b ^^^ 4294967295) &&& d), i)
    else if i < 32 then ((d &&& b) ||| ((d ^^^ 4294967295) &&& c), (5 * i + 1) % 16)
    else if i < 48 then (b ^^^ c ^^^ d, (3 * i + 5) % 16)
    else (c ^^^ (b ||| (d ^^^ 4294967295)), (7 * i) % 16)
  let f := (fg.1 + a + md5K.getD i 0 + M.getD fg.2 0) % 4294967296
  (d, (b + rotl32 f (md5S.getD i 0)) % 4294967296, b, c)

/-- Process one 64-byte block. -/
def md5Block (st : Nat × Nat × Nat × Nat) (block : List Nat) :
    Nat × Nat × Nat × Nat :=
  let M := leWords block
  let r := (List.range 64).foldl (md5Round M) st
  ((st.1 + r.1) % 4294967296,
   (st.2.1 + r.2.1) % 4294967296,
   (st.2.2.1 + r.2.2.1) % 4294967296,
   (st.2.2.2 + r.2.2.2) % 4294967296)

/-- Little-endian bytes of a 32-bit word. -/
def wordLEBytes (w : Nat) : List Nat :=
  [w % 256, (w / 256) % 256, (w / 65536) % 256, (w / 16777216) % 256]

/-- MD5 digest (16 bytes) of a byte list. -/
def md5 (msg : List Nat) : List Nat :=
  let blocks := chunks64 (md5Pad msg)
  let st := blocks.foldl md5Block (1732584193, 4023233417, 2562383102, 271733878)
  wordLEBytes st.1 ++ wordLEBytes st.2.1 ++ wordLEBytes st.2.2.1 ++ wordLEBytes st.2.2.2

/-- Lowercase hex digit. -/
def toHexDigit (n : Nat) : Char :=
  if n < 10 then Char.ofNat (48 + n) else Char.ofNat (87 + n)

/-- Two lowercase hex digits of a byte. -/
def byteToHex (b : Nat) : String :=
  String.mk [toHexDigit (b / 16), toHexDigit (b % 16)]

/-- Python `hashlib.md5(s.encode()).hexdigest()`. -/
def md5Hex (s : String) : String :=
  String.join ((md5 (strBytes s)).map byteToHex)

/-! ### Data model

`Metadata` is the metadata dict handed to `upsert_documents`: the keys the
code reads via `.get`, each `Option` because the key may be absent.
`Payload` is the payload dict built at vector_db.py:144-152 (absent metadata
keys become `""` for ticker/section and `None` for the rest).  `Point` is the
Qdrant `PointStruct`. -/

structure Metadata where
  ticker : Option String
  «section» : Option String
  fiscal_year : Option Int
  page : Option Int
  chunk_index : Option Int
deriving DecidableEq, Repr

structure Payload where
  text : String
  ticker : String
  «section» : String
  fiscal_year : Option Int
  page : Option Int
  chunk_index : Option Int
  created_at : String
deriving DecidableEq, Repr

structure Point where
  id : String
  vector : List Rat
  payload : Payload
deriving DecidableEq, Repr

/-- Qdrant `FieldCondition(key=..., match=MatchValue(value=...))`. -/
structure FieldCondition where
  key : String
  value : String
deriving DecidableEq, Repr

/-- Qdrant `Filter(must=[...])`. -/
structure QFilter where
  must : List FieldCondition
deriving DecidableEq, Repr

/-- One formatted result dict as built at vector_db.py:232-242. -/
structure SearchResult where
  text : String
  score : Rat
  ticker : String
  «section» : String
  fiscal_year : Option Int
  page : Option Int
  chunk_index : Option Int
deriving DecidableEq, Repr

/-! ### Small Python-semantics helpers -/

/-- Python truthiness of an `Optional[str]`: `None` and `""` are falsy. -/
def pyTruthy (o : Option String) : Bool :=
  o.getD "" != ""

/-- Whether `needle` occurs as a contiguous sublist of `hay` (Python `in` on str). -/
def listContainsSub : List Char → List Char → Bool
  | [], needle => needle.isEmpty
  | c :: t, needle => needle.isPrefixOf (c :: t) || listContainsSub t needle

/-- Python `needle in hay` for strings: substring containment. -/
def strContains (hay needle : String) : Bool :=
  listContainsSub hay.data needle.data

/-- Python `str.lower()` (ASCII case folding, character by character). -/
def strToLower (s : String) : String :=
  String.mk (s.data.map Char.toLower)

/-! ### `VectorDatabase._generate_chunk_id` (vector_db.py:86-89) -/

/-- Source `_generate_chunk_id`: the MD5 hex digest of the string
ticker, underscore, section, underscore, first 100 characters of the text,
where a missing ticker or section key defaults to the empty string. -/
def _generate_chunk_id (text : String) (metadata : Metadata) : String :=
  let content :=
    metadata.ticker.getD "" ++ "_" ++ metadata.«section».getD "" ++ "_" ++ text.take 100
  md5Hex content

/-! ### `VectorDatabase.upsert_documents` (vector_db.py:109-176)

The external collaborators are parameters:
* `embed_batch : List String → Option (List (List Rat))` — the
  SentenceTransformer batch encoding; `none` models an exception.
* `client_upsert : σ → List Point → Option σ` — `self.client.upsert` on an
  abstract store state `σ`; `none` models an exception.
`Except` errors carry the store state at the moment the Python exception
propagates out of `upsert_documents`. -/

/-- The point built per chunk at vector_db.py:142-160 (the payload also
records `datetime.utcnow().isoformat()`, passed in as `now`). -/
def mkPoint (now : String) (text : String) (embedding : List Rat)
    (metadata : Metadata) : Point :=
  { id := _generate_chunk_id text metadata
    vector := embedding
    payload :=
      { text := text
        ticker := metadata.ticker.getD ""
        «section» := metadata.«section».getD ""
        fiscal_year := metadata.fiscal_year
        page := metadata.page
        chunk_index := metadata.chunk_index
        created_at := now } }

/-- Source `zip(batch_texts, embeddings, batch_metadatas)` mapped through the point
construction; Python `zip` truncates to the shortest list. -/
def mkPoints (now : String) : List String → List (List Rat) → List Metadata → List Point
  | t :: ts, e :: es, m :: ms => mkPoint now t e m :: mkPoints now ts es ms
  | _, _, _ => []

/-- The batch loop `for i in range(0, len(texts), batch_size)` of
vector_db.py:132-169, with the slice `texts[i:i+batch_size]` rendered as
`take`/`drop`.  `bsPred + 1` is the (positive) batch size. -/
def upsertBatches {σ : Type} (embed_batch : List String → Option (List (List Rat)))
    (client_upsert : σ → List Point → Option σ) (now : String) (bsPred : Nat)
    (texts : List String) (metadatas : List Metadata) (s : σ) (total : Nat) :
    Except (String × σ) (σ × Nat) :=
  match texts with
  | [] => .ok (s, total)
  | t :: ts =>
    let batch_texts := (t :: ts).take (bsPred + 1)
    let batch_metadatas := metadatas.take (bsPred + 1)
    match embed_batch batch_texts with
    | none => .error ("Failed to generate batch embeddings", s)
    | some embeddings =>
      let points := mkPoints now batch_texts embeddings batch_metadatas
      match client_upsert s points with
      | none => .error ("Failed to upsert documents", s)
      | some s2 =>
        upsertBatches embed_batch client_upsert now bsPred
          ((t :: ts).drop (bsPred + 1)) (metadatas.drop (bsPred + 1)) s2
          (total + points.length)
termination_by texts.length
decreasing_by
  simp [List.drop_succ_cons]
  omega

/-- Source `upsert_documents(texts, metadatas, batch_size)`.  The length check at
vector_db.py:126-127 precedes everything; `batch_size = 0` makes the Python
`range` call raise before any iteration. -/
def upsert_documents {σ : Type} (embed_batch : List String → Option (List (List Rat)))
    (client_upsert : σ → List Point → Option σ) (now : String)
    (texts : List String) (metadatas : List Metadata) (batch_size : Nat) (s : σ) :
    Except (String × σ) (σ × Nat) :=
  if texts.length ≠ metadatas.length then
    .error ("texts and metadatas must have the same length", s)
  else
    match batch_size with
    | 0 => .error ("range() arg 3 must not be zero", s)
    | bsPred + 1 => upsertBatches embed_batch client_upsert now bsPred texts metadatas s 0

/-! ### Executable model of the external Qdrant store

Qdrant `upsert` replaces any stored point carrying the same id. -/

/-- Store one point: overwrite any record with the same id. -/
def upsertPoint (st : List Point) (p : Point) : List Point :=
  st.filter (fun q => q.id != p.id) ++ [p]

/-- Qdrant `client.upsert(points=...)` on a store of points. -/
def qdrantUpsert (st : List Point) (pts : List Point) : List Point :=
  pts.foldl upsertPoint st

/-- A client whose upserts always succeed. -/
def okUpsert (st : List Point) (pts : List Point) : Option (List Point) :=
  some (qdrantUpsert st pts)

/-- An embedding model that always succeeds, encoding each text by `embed`. -/
def someEmbed (embed : String → List Rat) : List String → Option (List (List Rat)) :=
  fun ts => some (ts.map embed)

/-- A client that performs `callsLeft` successful upsert calls and then
raises: models the batch at position `callsLeft` failing. -/
structure FClient where
  store : List Point
  callsLeft : Nat
deriving DecidableEq, Repr

/-- Upsert against `FClient`: fails once `callsLeft` hits zero. -/
def fUpsert (c : FClient) (pts : List Point) : Option FClient :=
  match c.callsLeft with
  | 0 => none
  | n + 1 => some { store := qdrantUpsert c.store pts, callsLeft := n }

/-- Reference run: the store after processing every batch with an
always-succeeding client (mirrors the `upsertBatches` recursion). -/
def storeAfter (embed : String → List Rat) (now : String) (bsPred : Nat)
    (texts : List String) (metadatas : List Metadata) (st : List Point) : List Point :=
  match texts with
  | [] => st
  | t :: ts =>
    storeAfter embed now bsPred ((t :: ts).drop (bsPred + 1))
      (metadatas.drop (bsPred + 1))
      (qdrantUpsert st (mkPoints now ((t :: ts).take (bsPred + 1))
        (((t :: ts).take (bsPred + 1)).map embed) (metadatas.take (bsPred + 1))))
termination_by texts.length
decreasing_by
  simp [List.drop_succ_cons]
  omega

/-! ### `VectorDatabase.search` (vector_db.py:178-249) and
`VectorDatabase.hybrid_search` (vector_db.py:251-293)

`client_search` is `self.client.search`: it receives the query vector, the
optional filter, `limit` and `score_threshold`, and returns scored points.
The Python code always passes a float threshold (the parameter default is
0.7), hence `some score_threshold` below. -/

/-- The filter built at vector_db.py:203-220: conditions only for truthy
`ticker` / `section`, `None` when no condition was built. -/
def buildFilter (ticker «section» : Option String) : Option QFilter :=
  let filter_conditions : List FieldCondition :=
    (if pyTruthy ticker then [{ key := "ticker", value := ticker.getD "" }] else []) ++
    (if pyTruthy «section» then [{ key := "section", value := «section».getD "" }] else [])
  if filter_conditions.isEmpty then none else some { must := filter_conditions }

/-- Source `search(query, ticker, section, top_k, score_threshold)`.  The call site
defaults are `top_k=5`, `score_threshold=0.7`. -/
def search (client_search : List Rat → Option QFilter → Nat → Option Rat → List (Rat × Point))
    (embed : String → List Rat) (query : String) (ticker «section» : Option String)
    (top_k : Nat) (score_threshold : Rat) : List SearchResult :=
  let query_embedding := embed query
  let query_filter := buildFilter ticker «section»
  let results := client_search query_embedding query_filter top_k (some score_threshold)
  results.map (fun r =>
    { text := r.2.payload.text
      score := r.1
      ticker := r.2.payload.ticker
      «section» := r.2.payload.«section»
      fiscal_year := r.2.payload.fiscal_year
      page := r.2.payload.page
      chunk_index := r.2.payload.chunk_index })

/-- Source `hybrid_search(query, keywords, ticker, section, top_k)`.  Stage 1 calls
`search` with `top_k * 2` and, `score_threshold` being left to its default,
the value `0.7`; stage 2 keeps results whose lowered text contains some
lowered keyword; stage 3 truncates to `top_k`. -/
def hybrid_search (client_search : List Rat → Option QFilter → Nat → Option Rat → List (Rat × Point))
    (embed : String → List Rat) (query : String) (keywords : List String)
    (ticker «section» : Option String) (top_k : Nat) : List SearchResult :=
  let semantic_results := search client_search embed query ticker «section» (top_k * 2) (mkRat 7 10)
  let filtered_results := semantic_results.filter (fun r =>
    keywords.any (fun keyword => strContains (strToLower r.text) (strToLower keyword)))
  filtered_results.take top_k

/-- Follows the wording of the spec for the hybrid stage 1 ("run semantic search
requesting 2 × top_k candidates ... with no score threshold"): identical to
`hybrid_search` except that no score threshold is handed to the store. -/
def hybrid_search_spec (client_search : List Rat → Option QFilter → Nat → Option Rat → List (Rat × Point))
    (embed : String → List Rat) (query : String) (keywords : List String)
    (ticker «section» : Option String) (top_k : Nat) : List SearchResult :=
  let query_filter := buildFilter ticker «section»
  let raw := client_search (embed query) query_filter (top_k * 2) none
  let semantic_results := raw.map (fun r =>
    ({ text := r.2.payload.text
       score := r.1
       ticker := r.2.payload.ticker
       «section» := r.2.payload.«section»
       fiscal_year := r.2.payload.fiscal_year
       page := r.2.payload.page
       chunk_index := r.2.payload.chunk_index } : SearchResult))
  let filtered_results := semantic_results.filter (fun r =>
    keywords.any (fun keyword => strContains (strToLower r.text) (strToLower keyword)))
  filtered_results.take top_k

/-! ### Executable model of Qdrant `client.search` -/

/-- One filter condition against a stored payload (only the keys the code
ever uses appear in filters). -/
def matchesCondition (p : Payload) (c : FieldCondition) : Bool :=
  if c.key = "ticker" then p.ticker == c.value
  else if c.key = "section" then p.«section» == c.value
  else false

/-- A payload passes an optional `must`-conjunction filter. -/
def matchesFilter (p : Payload) (f : Option QFilter) : Bool :=
  match f with
  | none => true
  | some f => f.must.all (matchesCondition p)

/-- Stable insertion into a descending-by-score list. -/
def insertByScore (x : Rat × Point) : List (Rat × Point) → List (Rat × Point)
  | [] => [x]
  | y :: ys => if decide (y.1 ≥ x.1) then y :: insertByScore x ys else x :: y :: ys

/-- Sort scored points by descending score (stable). -/
def sortByScoreDesc : List (Rat × Point) → List (Rat × Point)
  | [] => []
  | x :: xs => insertByScore x (sortByScoreDesc xs)

/-- Qdrant search over a concrete store: score every point (the similarity
function is a parameter), apply the filter and optional threshold, rank by
descending score, truncate to `limit`. -/
def qdrantSearch (score : List Rat → List Rat → Rat) (store : List Point)
    (query_vector : List Rat) (query_filter : Option QFilter) (limit : Nat)
    (score_threshold : Option Rat) : List (Rat × Point) :=
  let scored := store.map (fun p => (score query_vector p.vector, p))
  let filtered := scored.filter (fun sp =>
    matchesFilter sp.2.payload query_filter &&
      (match score_threshold with
       | none => true
       | some th => decide (th ≤ sp.1)))
  (sortByScoreDesc filtered).take limit

/-! ### `VectorDatabase._create_collection_if_not_exists` (vector_db.py:60-84)

The store state carries the existing collections (name, dimension) and a
flag modelling the external store rejecting the creation attempt (e.g. a
concurrent initializer already created the collection).  The `except` block
at vector_db.py:82-84 logs and re-raises, so a rejection propagates. -/

structure QdrantState where
  collections : List (String × Nat)
  rejectCreate : Bool
deriving DecidableEq, Repr

/-- Qdrant `client.create_collection`: fails when the store rejects the attempt. -/
def create_collection (c : QdrantState) (name : String) (size : Nat) :
    Option QdrantState :=
  if c.rejectCreate then none
  else some { c with collections := c.collections ++ [(name, size)] }

/-- Source `_create_collection_if_not_exists`: list collections; if the name is
absent, probe the embedding model with `"test"` for the dimension and create;
any exception is re-raised. -/
def _create_collection_if_not_exists (embed : String → List Rat)
    (collection_name : String) (c : QdrantState) : Except String QdrantState :=
  let collection_names := c.collections.map Prod.fst
  if collection_name ∉ collection_names then
    let vector_size := (embed "test").length
    match create_collection c collection_name vector_size with
    | none => .error "Failed to create collection"
    | some c2 => .ok c2
  else .ok c

/-! ### Concrete instances used to instantiate the theorems -/

/-- Trivial embedding model used to instantiate theorems at concrete inputs. -/
def constEmbed : String → List Rat := fun _ => [1]

/-- Metadata with every key absent. -/
def emptyMeta : Metadata :=
  { ticker := none, «section» := none, fiscal_year := none, page := none, chunk_index := none }

/-- A probing store client: returns a single candidate whose score echoes the
threshold it received and whose chunk_index echoes the limit it received. -/
def echoClient : List Rat → Option QFilter → Nat → Option Rat → List (Rat × Point) :=
  fun _ _ limit thresh =>
    [(thresh.getD (mkRat (-1) 1),
      { id := "p", vector := [],
        payload := { text := "x", ticker := "", «section» := "", fiscal_year := none,
                     page := none, chunk_index := some (limit : Int), created_at := "" } })]

/-- A stored point whose similarity score will fall below 0.7. -/
def lowPoint : Point :=
  { id := "low", vector := [1],
    payload := { text := "revenue growth", ticker := "", «section» := "",
                 fiscal_year := none, page := none, chunk_index := none, created_at := "" } }

/-- A similarity function assigning every point the score 1/2. -/
def halfScore : List Rat → List Rat → Rat := fun _ _ => mkRat 1 2

/-- A rewrite of `lowPoint`: same id, different vector. -/
def lowPoint2 : Point :=
  { id := "low", vector := [2], payload := lowPoint.payload }

/-- Whether an `Except` value is a success (the Python call returned rather
than raised). -/
def exceptIsOk {ε α : Type} : Except ε α → Bool
  | .ok _ => true
  | .error _ => false

/-! ## Theorems

First a stack of helper lemmas about the batch loop, the id multiset of the
modelled store, and list slicing; the claim theorems follow. -/

/-- The ids of a freshly built batch of points are the ids derived from the
zipped `(text, metadata)` pairs. -/
theorem mkPoints_map_id (now : String) (embed : String → List Rat) :
    ∀ (ts : List String) (ms : List Metadata),
      (mkPoints now ts (ts.map embed) ms).map Point.id =
        List.zipWith (fun t m => _generate_chunk_id t m) ts ms
  | [], _ => by simp [mkPoints]
  | _ :: _, [] => by simp [mkPoints]
  | t :: ts, m :: ms => by
    simp only [List.map_cons, mkPoints, List.zipWith_cons_cons]
    rw [mkPoints_map_id now embed ts ms]
    rfl

/-- Membership in the id list after storing one point. -/
theorem mem_ids_upsertPoint (st : List Point) (p : Point) (x : String) :
    x ∈ (upsertPoint st p).map Point.id ↔ x ∈ st.map Point.id ∨ x = p.id := by
  unfold upsertPoint
  simp only [List.map_append, List.map_cons, List.map_nil, List.mem_append,
    List.mem_singleton, List.mem_map, List.mem_filter, bne_iff_ne, ne_eq]
  constructor
  · rintro (⟨a, ⟨ha, _⟩, rfl⟩ | h)
    · exact Or.inl ⟨a, ha, rfl⟩
    · exact Or.inr h
  · rintro (⟨a, ha, rfl⟩ | rfl)
    · by_cases hx : a.id = p.id
      · exact Or.inr hx
      · exact Or.inl ⟨a, ⟨ha, hx⟩, rfl⟩
    · exact Or.inr rfl

/-- Membership in the id list after a batch upsert. -/
theorem mem_ids_qdrantUpsert (pts : List Point) : ∀ (st : List Point) (x : String),
    x ∈ (qdrantUpsert st pts).map Point.id ↔
      x ∈ st.map Point.id ∨ x ∈ pts.map Point.id := by
  induction pts with
  | nil =>
    intro st x
    simp [qdrantUpsert]
  | cons p ps ih =>
    intro st x
    show x ∈ (qdrantUpsert (upsertPoint st p) ps).map Point.id ↔ _
    rw [ih, mem_ids_upsertPoint]
    simp only [List.map_cons, List.mem_cons]
    tauto

/-- Storing one point preserves distinctness of stored ids. -/
theorem nodup_ids_upsertPoint (st : List Point) (p : Point)
    (h : (st.map Point.id).Nodup) : ((upsertPoint st p).map Point.id).Nodup := by
  unfold upsertPoint
  have hmf : (st.filter (fun q => q.id != p.id)).map Point.id =
      (st.map Point.id).filter (fun y => y != p.id) := by
    rw [List.filter_map]
    rfl
  rw [List.map_append, hmf, List.map_cons, List.map_nil]
  rw [List.nodup_append]
  refine ⟨h.filter _, List.nodup_singleton _, ?_⟩
  intro x hx hx1
  rw [List.mem_filter] at hx
  rw [List.mem_singleton] at hx1
  exact absurd hx1 (by simpa using hx.2)

/-- A batch upsert preserves distinctness of stored ids. -/
theorem nodup_ids_qdrantUpsert (pts : List Point) : ∀ (st : List Point),
    (st.map Point.id).Nodup → ((qdrantUpsert st pts).map Point.id).Nodup := by
  induction pts with
  | nil =>
    intro st h
    simpa [qdrantUpsert] using h
  | cons p ps ih =>
    intro st h
    exact ih (upsertPoint st p) (nodup_ids_upsertPoint st p h)

/-- Splitting `zipWith` along `take`/`drop` of both inputs. -/
theorem zipWith_take_drop {α β γ : Type} (f : α → β → γ) (l : List α) (l' : List β) (n : Nat) :
    List.zipWith f l l' =
      List.zipWith f (l.take n) (l'.take n) ++ List.zipWith f (l.drop n) (l'.drop n) := by
  rw [← List.take_zipWith, ← List.drop_zipWith, List.take_append_drop]

/-- Unfolding `storeAfter` on a nonempty text list. -/
theorem storeAfter_unfold (embed : String → List Rat) (now : String) (bsPred : Nat)
    (texts : List String) (metadatas : List Metadata) (st : List Point)
    (h : texts ≠ []) :
    storeAfter embed now bsPred texts metadatas st =
      storeAfter embed now bsPred (texts.drop (bsPred + 1)) (metadatas.drop (bsPred + 1))
        (qdrantUpsert st (mkPoints now (texts.take (bsPred + 1))
          ((texts.take (bsPred + 1)).map embed) (metadatas.take (bsPred + 1)))) := by
  cases texts with
  | nil => exact absurd rfl h
  | cons t ts => rw [storeAfter]

/-- Ids present after a reference run: those already stored plus the derived
ids of the processed pairs. -/
theorem mem_ids_storeAfter (embed : String → List Rat) (now : String) (bsPred : Nat) :
    ∀ (n : Nat) (texts : List String), texts.length ≤ n →
      ∀ (metadatas : List Metadata) (st : List Point) (x : String),
        (x ∈ (storeAfter embed now bsPred texts metadatas st).map Point.id ↔
          x ∈ st.map Point.id ∨
            x ∈ List.zipWith (fun t m => _generate_chunk_id t m) texts metadatas) := by
  intro n
  induction n with
  | zero =>
    intro texts hlen metadatas st x
    have : texts = [] := List.length_eq_zero.mp (Nat.le_zero.mp hlen)
    subst this
    simp [storeAfter]
  | succ n ih =>
    intro texts hlen metadatas st x
    cases texts with
    | nil => simp [storeAfter]
    | cons t ts =>
      rw [storeAfter_unfold embed now bsPred (t :: ts) metadatas st (by simp)]
      rw [ih _ (by
        have hlc := hlen
        simp only [List.length_cons] at hlc
        simp only [List.drop_succ_cons, List.length_drop]
        omega)]
      rw [mem_ids_qdrantUpsert, mkPoints_map_id]
      rw [zipWith_take_drop (fun t m => _generate_chunk_id t m) (t :: ts) metadatas (bsPred + 1)]
      rw [List.mem_append]
      tauto

/-- A reference run preserves distinctness of stored ids. -/
theorem nodup_ids_storeAfter (embed : String → List Rat) (now : String) (bsPred : Nat) :
    ∀ (n : Nat) (texts : List String), texts.length ≤ n →
      ∀ (metadatas : List Metadata) (st : List Point),
        (st.map Point.id).Nodup →
        ((storeAfter embed now bsPred texts metadatas st).map Point.id).Nodup := by
  intro n
  induction n with
  | zero =>
    intro texts hlen metadatas st h
    have : texts = [] := List.length_eq_zero.mp (Nat.le_zero.mp hlen)
    subst this
    simpa [storeAfter] using h
  | succ n ih =>
    intro texts hlen metadatas st h
    cases texts with
    | nil => simpa [storeAfter] using h
    | cons t ts =>
      rw [storeAfter_unfold embed now bsPred (t :: ts) metadatas st (by simp)]
      exact ih _ (by
        have hlc := hlen
        simp only [List.length_cons] at hlc
        simp only [List.drop_succ_cons, List.length_drop]
        omega) _ _
        (nodup_ids_qdrantUpsert _ _ h)

/-- With a total embedding model and an always-succeeding client, the batch
loop succeeds and produces exactly the reference store. -/
theorem upsertBatches_ok (embed : String → List Rat) (now : String) (bsPred : Nat) :
    ∀ (n : Nat) (texts : List String), texts.length ≤ n →
      ∀ (metadatas : List Metadata) (st : List Point) (total : Nat),
        ∃ m : Nat,
          upsertBatches (someEmbed embed) okUpsert now bsPred texts metadatas st total =
            .ok (storeAfter embed now bsPred texts metadatas st, m) := by
  intro n
  induction n with
  | zero =>
    intro texts hlen metadatas st total
    have : texts = [] := List.length_eq_zero.mp (Nat.le_zero.mp hlen)
    subst this
    exact ⟨total, by rw [upsertBatches, storeAfter]⟩
  | succ n ih =>
    intro texts hlen metadatas st total
    cases texts with
    | nil => exact ⟨total, by rw [upsertBatches, storeAfter]⟩
    | cons t ts =>
      rw [upsertBatches]
      rw [storeAfter_unfold embed now bsPred (t :: ts) metadatas st (by simp)]
      exact ih _ (by
        have hlc := hlen
        simp only [List.length_cons] at hlc
        simp only [List.drop_succ_cons, List.length_drop]
        omega) _ _ _

/-- Processing the first `k·B + B` input pairs is processing one batch of `B`
and then the next `k·B` pairs (`B` is the positive batch size). -/
theorem storeAfter_take_add (embed : String → List Rat) (now : String) (bsPred k : Nat)
    (texts : List String) (metadatas : List Metadata) (st : List Point)
    (h : 0 < texts.length) :
    storeAfter embed now bsPred (texts.take (k * (bsPred + 1) + (bsPred + 1)))
        (metadatas.take (k * (bsPred + 1) + (bsPred + 1))) st =
      storeAfter embed now bsPred ((texts.drop (bsPred + 1)).take (k * (bsPred + 1)))
        ((metadatas.drop (bsPred + 1)).take (k * (bsPred + 1)))
        (qdrantUpsert st (mkPoints now (texts.take (bsPred + 1))
          ((texts.take (bsPred + 1)).map embed) (metadatas.take (bsPred + 1)))) := by
  have hne : texts.take (k * (bsPred + 1) + (bsPred + 1)) ≠ [] := by
    rw [← List.length_pos, List.length_take]
    rw [lt_min_iff]
    exact ⟨by omega, h⟩
  rw [storeAfter_unfold embed now bsPred _ _ st hne]
  rw [List.take_take, List.take_take, List.drop_take, List.drop_take,
    Nat.add_sub_cancel]
  rw [min_eq_left (Nat.le_add_left (bsPred + 1) (k * (bsPred + 1)))]

/-- When the client raises on its `(k+1)`-st upsert call, the batch loop stops
with an error whose store holds exactly the writes of the first `k` batches
and whose remaining-call budget is exhausted. -/
theorem upsertBatches_fail (embed : String → List Rat) (now : String) (bsPred : Nat) :
    ∀ (k : Nat) (texts : List String) (metadatas : List Metadata)
      (st : List Point) (total : Nat),
      k * (bsPred + 1) < texts.length →
      upsertBatches (someEmbed embed) fUpsert now bsPred texts metadatas
          { store := st, callsLeft := k } total =
        .error ("Failed to upsert documents",
          { store := storeAfter embed now bsPred (texts.take (k * (bsPred + 1)))
              (metadatas.take (k * (bsPred + 1))) st,
            callsLeft := 0 }) := by
  intro k
  induction k with
  | zero =>
    intro texts metadatas st total hk
    cases texts with
    | nil => simp at hk
    | cons t ts =>
      rw [upsertBatches]
      simp [someEmbed, fUpsert, storeAfter]
  | succ k ih =>
    intro texts metadatas st total hk
    cases texts with
    | nil => simp at hk
    | cons t ts =>
      rw [upsertBatches]
      simp only [someEmbed, fUpsert]
      rw [ih ((t :: ts).drop (bsPred + 1)) (metadatas.drop (bsPred + 1)) _ _ (by
        rw [Nat.succ_mul] at hk
        simp only [List.length_cons] at hk
        simp only [List.drop_succ_cons, List.length_drop]
        omega)]
      rw [show (k + 1) * (bsPred + 1) = k * (bsPred + 1) + (bsPred + 1) from by ring]
      rw [storeAfter_take_add embed now bsPred k (t :: ts) metadatas st (by simp)]

/-- C1 counterexample: input of two one-record batches where the first upsert
call succeeds and the second raises.  The call does not yield the partial
count written before the failure — it yields no count at all (the exception
propagates). -/
theorem upsert_partial_count_cex :
    exceptIsOk (upsert_documents (someEmbed constEmbed) fUpsert "now"
      ["a", "b"] [emptyMeta, emptyMeta] 1 { store := [], callsLeft := 1 }) = false := by
  unfold upsert_documents
  rw [if_neg (by decide)]
  show exceptIsOk (upsertBatches (someEmbed constEmbed) fUpsert "now" 0
    ["a", "b"] [emptyMeta, emptyMeta] { store := [], callsLeft := 1 } 0) = false
  rw [upsertBatches]
  simp only [someEmbed, fUpsert, List.take_succ_cons, List.take_zero,
    List.drop_succ_cons, List.drop_zero]
  rw [upsertBatches]
  rfl

/-- C1 amended: if the store raises while upserting batch `k+1`, the call
aborts without processing the remaining batches — the store holds exactly the
writes of batches `1..k` — and the failure propagates to the caller as an
error; the partial count is not returned. -/
theorem upsert_documents_batch_failure (embed : String → List Rat) (now : String)
    (bsPred k : Nat) (texts : List String) (metadatas : List Metadata)
    (st : List Point)
    (hlen : texts.length = metadatas.length)
    (hk : k * (bsPred + 1) < texts.length) :
    upsert_documents (someEmbed embed) fUpsert now texts metadatas (bsPred + 1)
        { store := st, callsLeft := k } =
      .error ("Failed to upsert documents",
        { store := storeAfter embed now bsPred (texts.take (k * (bsPred + 1)))
            (metadatas.take (k * (bsPred + 1))) st,
          callsLeft := 0 }) := by
  unfold upsert_documents
  rw [if_neg (by omega)]
  exact upsertBatches_fail embed now bsPred k texts metadatas st 0 hk

/-- C1 amended witness: the batch-failure theorem at a concrete two-batch
input failing on the second batch. -/
theorem upsert_documents_batch_failure_witness :
    upsert_documents (someEmbed constEmbed) fUpsert "now" ["a", "b"]
        [emptyMeta, emptyMeta] 1 { store := [], callsLeft := 1 } =
      .error ("Failed to upsert documents",
        { store := storeAfter constEmbed "now" 0 (["a", "b"].take 1)
            ([emptyMeta, emptyMeta].take 1) [],
          callsLeft := 0 }) := by
  have h := upsert_documents_batch_failure constEmbed "now" 0 1 ["a", "b"]
    [emptyMeta, emptyMeta] [] rfl (by decide)
  simpa using h

/-- C7: ingestion is idempotent — from an empty collection, running
`upsert_documents` twice on the same `(texts, metadatas)` succeeds both times
and leaves the collection holding exactly one record per distinct derived id;
the second run replaces records in place and creates no duplicates. -/
theorem upsert_idempotent (embed : String → List Rat) (now1 now2 : String)
    (texts : List String) (metadatas : List Metadata) (bsPred : Nat)
    (hlen : texts.length = metadatas.length) :
    ∃ (n1 n2 : Nat),
      upsert_documents (someEmbed embed) okUpsert now1 texts metadatas (bsPred + 1) [] =
        .ok (storeAfter embed now1 bsPred texts metadatas [], n1) ∧
      upsert_documents (someEmbed embed) okUpsert now2 texts metadatas (bsPred + 1)
          (storeAfter embed now1 bsPred texts metadatas []) =
        .ok (storeAfter embed now2 bsPred texts metadatas
          (storeAfter embed now1 bsPred texts metadatas []), n2) ∧
      (∀ x ∈ List.zipWith (fun t m => _generate_chunk_id t m) texts metadatas,
        ((storeAfter embed now2 bsPred texts metadatas
            (storeAfter embed now1 bsPred texts metadatas [])).filter
          (fun p => p.id == x)).length = 1) ∧
      (∀ p ∈ storeAfter embed now2 bsPred texts metadatas
          (storeAfter embed now1 bsPred texts metadatas []),
        p.id ∈ List.zipWith (fun t m => _generate_chunk_id t m) texts metadatas) := by
  obtain ⟨n1, h1⟩ := upsertBatches_ok embed now1 bsPred texts.length texts le_rfl metadatas [] 0
  obtain ⟨n2, h2⟩ := upsertBatches_ok embed now2 bsPred texts.length texts le_rfl metadatas
    (storeAfter embed now1 bsPred texts metadatas []) 0
  have hnod1 : ((storeAfter embed now1 bsPred texts metadatas []).map Point.id).Nodup :=
    nodup_ids_storeAfter embed now1 bsPred texts.length texts le_rfl metadatas [] (by simp)
  have hnod2 : ((storeAfter embed now2 bsPred texts metadatas
      (storeAfter embed now1 bsPred texts metadatas [])).map Point.id).Nodup :=
    nodup_ids_storeAfter embed now2 bsPred texts.length texts le_rfl metadatas _ hnod1
  have hmem2 : ∀ x, x ∈ (storeAfter embed now2 bsPred texts metadatas
      (storeAfter embed now1 bsPred texts metadatas [])).map Point.id ↔
      x ∈ List.zipWith (fun t m => _generate_chunk_id t m) texts metadatas := by
    intro x
    rw [mem_ids_storeAfter embed now2 bsPred texts.length texts le_rfl metadatas _ x]
    rw [mem_ids_storeAfter embed now1 bsPred texts.length texts le_rfl metadatas [] x]
    simp
  refine ⟨n1, n2, ?_, ?_, ?_, ?_⟩
  · unfold upsert_documents
    rw [if_neg (by omega)]
    exact h1
  · unfold upsert_documents
    rw [if_neg (by omega)]
    exact h2
  · intro x hx
    have hxm := (hmem2 x).mpr hx
    have hcount := List.count_eq_one_of_mem hnod2 hxm
    calc ((storeAfter embed now2 bsPred texts metadatas
          (storeAfter embed now1 bsPred texts metadatas [])).filter
          (fun p => p.id == x)).length
        = List.countP (fun p => p.id == x) (storeAfter embed now2 bsPred texts metadatas
            (storeAfter embed now1 bsPred texts metadatas [])) :=
          (List.countP_eq_length_filter _ _).symm
      _ = List.countP (fun y => y == x) ((storeAfter embed now2 bsPred texts metadatas
            (storeAfter embed now1 bsPred texts metadatas [])).map Point.id) := by
          rw [List.countP_map]
          rfl
      _ = 1 := hcount
  · intro p hp
    exact (hmem2 p.id).mp (List.mem_map_of_mem Point.id hp)

/-- C7 witness: the idempotency theorem at a concrete two-chunk ingestion
with batch size 1. -/
theorem upsert_idempotent_witness :
    ∃ (n1 n2 : Nat),
      upsert_documents (someEmbed constEmbed) okUpsert "t1" ["alpha", "beta"]
          [emptyMeta, emptyMeta] 1 [] =
        .ok (storeAfter constEmbed "t1" 0 ["alpha", "beta"] [emptyMeta, emptyMeta] [], n1) ∧
      upsert_documents (someEmbed constEmbed) okUpsert "t2" ["alpha", "beta"]
          [emptyMeta, emptyMeta] 1
          (storeAfter constEmbed "t1" 0 ["alpha", "beta"] [emptyMeta, emptyMeta] []) =
        .ok (storeAfter constEmbed "t2" 0 ["alpha", "beta"] [emptyMeta, emptyMeta]
          (storeAfter constEmbed "t1" 0 ["alpha", "beta"] [emptyMeta, emptyMeta] []), n2) ∧
      (∀ x ∈ List.zipWith (fun t m => _generate_chunk_id t m) ["alpha", "beta"]
          [emptyMeta, emptyMeta],
        ((storeAfter constEmbed "t2" 0 ["alpha", "beta"] [emptyMeta, emptyMeta]
            (storeAfter constEmbed "t1" 0 ["alpha", "beta"] [emptyMeta, emptyMeta] [])).filter
          (fun p => p.id == x)).length = 1) ∧
      (∀ p ∈ storeAfter constEmbed "t2" 0 ["alpha", "beta"] [emptyMeta, emptyMeta]
          (storeAfter constEmbed "t1" 0 ["alpha", "beta"] [emptyMeta, emptyMeta] []),
        p.id ∈ List.zipWith (fun t m => _generate_chunk_id t m) ["alpha", "beta"]
          [emptyMeta, emptyMeta]) :=
  upsert_idempotent constEmbed "t1" "t2" ["alpha", "beta"] [emptyMeta, emptyMeta] 0 rfl

/-- C4: `_generate_chunk_id` is pure and deterministic — two calls agreeing on
`(ticker, section, first-100-characters-of-text)` yield the same id — and a
metadata lacking `ticker`/`section` behaves exactly as one carrying the empty
string, so the id is always computable. -/
theorem derive_id_deterministic :
    (∀ (t1 t2 : String) (m1 m2 : Metadata),
      m1.ticker.getD "" = m2.ticker.getD "" →
      m1.«section».getD "" = m2.«section».getD "" →
      t1.take 100 = t2.take 100 →
      _generate_chunk_id t1 m1 = _generate_chunk_id t2 m2) ∧
    (∀ (t : String) (fy pg ci : Option Int),
      _generate_chunk_id t
          { ticker := none, «section» := none, fiscal_year := fy, page := pg, chunk_index := ci } =
        _generate_chunk_id t
          { ticker := some "", «section» := some "", fiscal_year := fy, page := pg, chunk_index := ci }) := by
  constructor
  · intro t1 t2 m1 m2 ht hs hp
    unfold _generate_chunk_id
    rw [ht, hs, hp]
  · intro t fy pg ci
    rfl

/-- C4 witness: the determinism theorem applied at concrete inputs. -/
theorem derive_id_deterministic_witness :
    _generate_chunk_id "alpha"
        { ticker := some "ACME", «section» := some "MD&A", fiscal_year := none, page := none, chunk_index := none } =
      _generate_chunk_id "alpha"
        { ticker := some "ACME", «section» := some "MD&A", fiscal_year := some 2020, page := some 3, chunk_index := some 0 } :=
  derive_id_deterministic.1 "alpha" "alpha" _ _ rfl rfl rfl

/-- C8: the chunk id depends on at most the first 100 characters of the text,
so two texts agreeing on that prefix collide for equal metadata, and the later
upsert of a colliding id overwrites the earlier record. -/
theorem chunk_id_prefix_collision :
    (∀ (m : Metadata) (t1 t2 : String), t1.take 100 = t2.take 100 →
      _generate_chunk_id t1 m = _generate_chunk_id t2 m) ∧
    (∀ (s : List Point) (p1 p2 : Point), p1.id = p2.id →
      (qdrantUpsert (qdrantUpsert s [p1]) [p2]).filter (fun q => q.id == p2.id) = [p2]) := by
  constructor
  · intro m t1 t2 hp
    unfold _generate_chunk_id
    rw [hp]
  · intro s p1 p2 h
    show (upsertPoint (upsertPoint s p1) p2).filter (fun q => q.id == p2.id) = [p2]
    unfold upsertPoint
    rw [List.filter_append]
    have hx : ((List.filter (fun q => q.id != p1.id) s ++ [p1]).filter
        (fun q => q.id != p2.id)).filter (fun q => q.id == p2.id) = [] := by
      rw [List.filter_filter]
      apply List.filter_eq_nil_iff.mpr
      intro q _
      by_cases hq : q.id = p2.id <;> simp [hq]
    rw [hx]
    simp

set_option maxRecDepth 8192 in
/-- C8 witness: two 101-character texts sharing their first 100 characters
collide, and the second upsert replaces the first record. -/
theorem chunk_id_prefix_collision_witness :
    _generate_chunk_id
        "aaaaaaaaaaaaaaaaaaaaaaaaaaaaaaaaaaaaaaaaaaaaaaaaaaaaaaaaaaaaaaaaaaaaaaaaaaaaaaaaaaaaaaaaaaaaaaaaaaaaX"
        emptyMeta =
      _generate_chunk_id
        "aaaaaaaaaaaaaaaaaaaaaaaaaaaaaaaaaaaaaaaaaaaaaaaaaaaaaaaaaaaaaaaaaaaaaaaaaaaaaaaaaaaaaaaaaaaaaaaaaaaaY"
        emptyMeta ∧
    (qdrantUpsert (qdrantUpsert [] [lowPoint]) [lowPoint2]).filter
        (fun q => q.id == lowPoint2.id) = [lowPoint2] :=
  ⟨chunk_id_prefix_collision.1 emptyMeta _ _ (by decide),
   chunk_id_prefix_collision.2 [] lowPoint lowPoint2 rfl⟩

/-- C5: when `len(texts) != len(metadatas)`, `upsert_documents` fails with the
validation error for every embedding model and every store client, with the
store state untouched — no embedding or store I/O can have occurred. -/
theorem upsert_length_mismatch {σ : Type}
    (embed_batch : List String → Option (List (List Rat)))
    (client_upsert : σ → List Point → Option σ) (now : String)
    (texts : List String) (metadatas : List Metadata) (batch_size : Nat) (s : σ)
    (h : texts.length ≠ metadatas.length) :
    upsert_documents embed_batch client_upsert now texts metadatas batch_size s =
      .error ("texts and metadatas must have the same length", s) := by
  unfold upsert_documents
  simp [h]

/-- C5 witness: the validation-error theorem at a concrete mismatched input. -/
theorem upsert_length_mismatch_witness :
    upsert_documents (someEmbed constEmbed) okUpsert "now" ["a"] [] 100 [] =
      .error ("texts and metadatas must have the same length", []) :=
  upsert_length_mismatch (someEmbed constEmbed) okUpsert "now" ["a"] [] 100 [] (by decide)

/-- C10: `hybrid_search` with an empty keyword list returns the empty list for
every client, query, filter and `top_k` — no candidate passes an OR over zero
keywords. -/
theorem hybrid_empty_keywords
    (client_search : List Rat → Option QFilter → Nat → Option Rat → List (Rat × Point))
    (embed : String → List Rat) (query : String)
    (ticker «section» : Option String) (top_k : Nat) :
    hybrid_search client_search embed query [] ticker «section» top_k = [] := by
  unfold hybrid_search
  simp

/-- C3: every `hybrid_search` result contains some keyword case-insensitively,
at most `top_k` results are returned, and the results form a sublist of the
stage-1 semantic results (their relative order is preserved). -/
theorem hybrid_search_correct
    (client_search : List Rat → Option QFilter → Nat → Option Rat → List (Rat × Point))
    (embed : String → List Rat) (query : String) (keywords : List String)
    (ticker «section» : Option String) (top_k : Nat) :
    (∀ r ∈ hybrid_search client_search embed query keywords ticker «section» top_k,
      ∃ kw ∈ keywords, strContains (strToLower r.text) (strToLower kw) = true) ∧
    (hybrid_search client_search embed query keywords ticker «section» top_k).length ≤ top_k ∧
    List.Sublist (hybrid_search client_search embed query keywords ticker «section» top_k)
      (search client_search embed query ticker «section» (top_k * 2) (mkRat 7 10)) := by
  refine ⟨?_, ?_, ?_⟩
  · intro r hr
    unfold hybrid_search at hr
    have hf := List.mem_of_mem_take hr
    have hp := List.of_mem_filter hf
    simpa [List.any_eq_true] using hp
  · unfold hybrid_search
    exact List.length_take_le _ _
  · unfold hybrid_search
    exact (List.take_sublist _ _).trans (List.filter_sublist _)

/-- C3 witness: the keyword-presence conclusion at a concrete client, query
and result. -/
theorem hybrid_search_correct_witness :
    ∃ kw ∈ ["x"], strContains (strToLower "x") (strToLower kw) = true := by
  have h := (hybrid_search_correct echoClient constEmbed "q" ["x"] none none 1).1
    { text := "x", score := mkRat 7 10, ticker := "", «section» := "", fiscal_year := none,
      page := none, chunk_index := some 2 } (by decide)
  simpa using h

/-- C9: an empty-string ticker or section argument to `search` behaves like an
absent one — no filter condition is built and the whole search coincides with
the unfiltered one — while ingestion stores `""` as the ticker of records
whose metadata lacked the key, and a record with empty ticker can never pass
any ticker filter condition. -/
theorem search_empty_filter :
    buildFilter (some "") (some "") = none ∧
    (∀ (client_search : List Rat → Option QFilter → Nat → Option Rat → List (Rat × Point))
       (embed : String → List Rat) (query : String) (top_k : Nat) (score_threshold : Rat),
      search client_search embed query (some "") (some "") top_k score_threshold =
        search client_search embed query none none top_k score_threshold) ∧
    (∀ (now text : String) (embedding : List Rat) (m : Metadata), m.ticker = none →
      (mkPoint now text embedding m).payload.ticker = "") ∧
    (∀ (t : String) («section» : Option String), t ≠ "" →
      ∀ p : Payload, p.ticker = "" →
        matchesFilter p (buildFilter (some t) «section») = false) := by
  refine ⟨rfl, ?_, ?_, ?_⟩
  · intro client_search embed query top_k score_threshold
    rfl
  · intro now text embedding m hm
    simp [mkPoint, hm]
  · intro t sec ht p hp
    have htb : pyTruthy (some t) = true := by
      simpa [pyTruthy] using ht
    unfold buildFilter matchesFilter
    rw [htb]
    cases hsec : pyTruthy sec <;>
      simp [matchesCondition, hp, Ne.symm ht]

/-- C9 witness: the empty-filter equivalence, the stored empty ticker, and the
never-matching filter, each at a concrete input. -/
theorem search_empty_filter_witness :
    search echoClient constEmbed "q" (some "") (some "") 5 (mkRat 7 10) =
      search echoClient constEmbed "q" none none 5 (mkRat 7 10) ∧
    (mkPoint "now" "txt" [1] emptyMeta).payload.ticker = "" ∧
    matchesFilter
        { text := "", ticker := "", «section» := "", fiscal_year := none,
          page := none, chunk_index := none, created_at := "" }
        (buildFilter (some "ACME") none) = false :=
  ⟨search_empty_filter.2.1 echoClient constEmbed "q" 5 (mkRat 7 10),
   search_empty_filter.2.2.1 "now" "txt" [1] emptyMeta rfl,
   search_empty_filter.2.2.2 "ACME" none (by decide) _ rfl⟩

/-- C6 counterexample: the collection name is absent and the store rejects the
creation attempt; `_create_collection_if_not_exists` propagates the rejection
as an error instead of treating it as "already exists". -/
theorem create_collection_reject_cex :
    _create_collection_if_not_exists constEmbed "sec_filings"
        { collections := [], rejectCreate := true } =
      .error "Failed to create collection" := by
  rfl

/-- C6 amended: whenever the collection name is absent and the external store
rejects the creation attempt, the call fails with an error — the `except`
block re-raises, so a rejection by a concurrent initializer is fatal, not
treated as "already exists". -/
theorem create_collection_reject_raises (embed : String → List Rat)
    (name : String) (cols : List (String × Nat))
    (h : name ∉ cols.map Prod.fst) :
    _create_collection_if_not_exists embed name
        { collections := cols, rejectCreate := true } =
      .error "Failed to create collection" := by
  unfold _create_collection_if_not_exists create_collection
  simp [h]

/-- C6 amended witness: the rejection-propagation theorem at a concrete
store. -/
theorem create_collection_reject_raises_witness :
    _create_collection_if_not_exists constEmbed "sec_filings"
        { collections := [("other", 3)], rejectCreate := true } =
      .error "Failed to create collection" :=
  create_collection_reject_raises constEmbed "sec_filings" [("other", 3)] (by decide)

/-- C2 counterexample: a store holding one candidate scoring 1/2 that matches
the keyword.  The implemented `hybrid_search` returns nothing — stage 1 discards
the candidate under the default score threshold 0.7 — while the spec-worded
variant with no stage-1 threshold returns it.  So stage 1 does apply a score
threshold, contrary to the claim. -/
theorem hybrid_no_threshold_cex :
    hybrid_search (qdrantSearch halfScore [lowPoint]) constEmbed "q" ["revenue"]
        none none 1 = [] ∧
    hybrid_search_spec (qdrantSearch halfScore [lowPoint]) constEmbed "q" ["revenue"]
        none none 1 =
      [{ text := "revenue growth", score := mkRat 1 2, ticker := "", «section» := "",
         fiscal_year := none, page := none, chunk_index := none }] := by
  constructor <;> decide

/-- C2 amended: stage 1 of `hybrid_search` requests exactly `2 × top_k`
candidates and passes the default score threshold 0.7 of `search` to the
store: a probing client observes limit `top_k * 2` and threshold `0.7`. -/
theorem hybrid_stage1_limit_threshold (embed : String → List Rat) (query : String)
    (ticker «section» : Option String) (top_k : Nat) (h : 1 ≤ top_k) :
    hybrid_search echoClient embed query ["x"] ticker «section» top_k =
      [{ text := "x", score := mkRat 7 10, ticker := "", «section» := "",
         fiscal_year := none, page := none, chunk_index := some ((top_k * 2 : Nat) : Int) }] := by
  obtain ⟨m, rfl⟩ : ∃ m, top_k = m + 1 := ⟨top_k - 1, by omega⟩
  unfold hybrid_search search echoClient
  simp only [Option.getD_some, List.map_cons, List.map_nil, List.filter_cons]
  rw [show (["x"].any fun keyword =>
      strContains (strToLower "x") (strToLower keyword)) = true from by decide]
  simp [List.take_succ_cons]

/-- C2 amended witness: the probing-client theorem at `top_k = 1`. -/
theorem hybrid_stage1_limit_threshold_witness :
    hybrid_search echoClient constEmbed "q" ["x"] none none 1 =
      [{ text := "x", score := mkRat 7 10, ticker := "", «section» := "",
         fiscal_year := none, page := none, chunk_index := some ((1 * 2 : Nat) : Int) }] :=
  hybrid_stage1_limit_threshold constEmbed "q" none none 1 (by decide)

end VectorDb

